import Mathlib

/-!
Verification of the tool-calling orchestration core of the Smart City
Info Agent (client/client.py and server/server.py).

The embedding models Python JSON values as an inductive type, the HTTP
transport to the tool server as an oracle indexed by the number of
previous calls, and Python exceptions as the error side of Except.
-/

/-- A JSON value as handled by the Python code (dicts are ordered
association lists, matching Python 3.7+ insertion-ordered dicts). -/
inductive JVal where
  | str (s : String)
  | num (n : Int)
  | bool (b : Bool)
  | null
  | arr (xs : List JVal)
  | obj (kvs : List (String × JVal))

/-- A Python dict with string keys, insertion ordered. -/
abbrev JDict := List (String × JVal)

/-- Dictionary lookup, first occurrence wins (keys are unique by
construction, as in a Python dict). -/
def jGet (d : JDict) (k : String) : Option JVal :=
  match d with
  | [] => none
  | (k', v) :: rest => if k' = k then some v else jGet rest k

/-- Python membership test for a dict key. -/
def hasKey (d : JDict) (k : String) : Bool :=
  (jGet d k).isSome

/-- Python dict.get with a default. -/
def jGetD (d : JDict) (k : String) (dflt : JVal) : JVal :=
  (jGet d k).getD dflt

/-- Python dict assignment: replaces an existing key in place, else
appends at the end, preserving insertion order. -/
def dictSet (d : JDict) (k : String) (v : JVal) : JDict :=
  match d with
  | [] => [(k, v)]
  | (k', v') :: rest => if k' = k then (k, v) :: rest else (k', v') :: dictSet rest k v

theorem jGet_dictSet_self (d : JDict) (k : String) (v : JVal) :
    jGet (dictSet d k v) k = some v := by
  induction d with
  | nil => simp [dictSet, jGet]
  | cons kv rest ih =>
    by_cases h : kv.1 = k
    · simp [dictSet, h, jGet]
    · simp [dictSet, h, jGet, ih]

theorem hasKey_dictSet_self (d : JDict) (k : String) (v : JVal) :
    hasKey (dictSet d k v) k = true := by
  simp [hasKey, jGet_dictSet_self]

theorem dictSet_isEmpty (d : JDict) (k : String) (v : JVal) :
    (dictSet d k v).isEmpty = false := by
  cases d with
  | nil => simp [dictSet]
  | cons kv rest => by_cases h : kv.1 = k <;> simp [dictSet, h]

/-! ## Transport layer and tool executor (client.py call_tool) -/

/-- Outcome of one HTTP round trip from the client to the tool server:
either the response body parsed as a JSON dict, or an exception raised
by requests.post or response.json (connection error, timeout, non-JSON
body), carrying its message. -/
inductive HttpOutcome where
  | ok (payload : JDict)
  | exn (msg : String)

/-- The HTTP transport as an oracle: the outcome of the n-th HTTP call
of the request (counted from 0), for a given tool name and argument
payload. Indexing by the call count lets distinct calls to the same
tool behave differently, as real network calls can. -/
abbrev ToolOracle := Nat → String → JDict → HttpOutcome

/-- The body of the try block in call_tool: requests.post followed by
response.json. The error side is a raised Python exception. -/
def callToolAttempt (oracle : ToolOracle) (k : Nat) (name : String) (args : JDict) :
    Except String JDict :=
  match oracle k name args with
  | .ok d => .ok d
  | .exn e => .error e

/-- client.py call_tool: try the HTTP call, and on any exception return
the dict with the exception text under the error key. -/
def call_tool (oracle : ToolOracle) (k : Nat) (name : String) (args : JDict) : JDict :=
  match callToolAttempt oracle k name args with
  | .ok d => d
  | .error e => [("error", JVal.str e)]

/-- call_tool with its exception behavior made explicit: the error side
would be an exception escaping call_tool. The except clause converts
every raised exception into a returned dict, so the error side is never
produced. -/
def call_tool_sem (oracle : ToolOracle) (k : Nat) (name : String) (args : JDict) :
    Except String JDict :=
  match callToolAttempt oracle k name args with
  | .ok d => .ok d
  | .error e => .ok [("error", JVal.str e)]

/-! ## The tool server (server.py) seen from the client -/

/-- The tool routes registered on the Flask server in server.py:
one POST route per tool function. -/
def serverRoutes : List String :=
  ["geocode_location", "get_weather", "search_places", "translate_text"]

/-- The message of the json.JSONDecodeError raised by response.json when
the body is the Flask 404 HTML page (it starts with a < character, so
JSON decoding fails at the very first position). -/
def jsonDecodeErrorMsg : String := "Expecting value: line 1 column 1 (char 0)"

/-- The HTTP stack of server.py as a transport oracle: a POST to
/tool/name runs the matching tool function when the route exists;
an unknown name gets the Flask 404 HTML page, which is not JSON, so
response.json raises a JSONDecodeError whose message does not mention
the tool name. The behavior of the four tool functions themselves is
abstracted as impl. -/
def serverTransport (impl : Nat → String → JDict → JDict) : ToolOracle :=
  fun k name args =>
    if name ∈ serverRoutes then .ok (impl k name args) else .exn jsonDecodeErrorMsg

/-! ## String heuristics of the chaining policy (client.py lines 162-176) -/

/-- Python str.lower on the character list of a string. -/
def lowerChars (s : String) : List Char := s.toList.map Char.toLower

/-- Worker for Python str.split with no argument: split on runs of
whitespace, dropping empty pieces; acc holds the current token reversed. -/
def splitWsAux : List Char → List Char → List (List Char)
  | [], acc => if acc.isEmpty then [] else [acc.reverse]
  | c :: cs, acc =>
    if c.isWhitespace then
      if acc.isEmpty then splitWsAux cs [] else acc.reverse :: splitWsAux cs []
    else splitWsAux cs (c :: acc)

/-- user_query.lower().split() from client.py line 169. -/
def pyWords (s : String) : List (List Char) := splitWsAux (lowerChars s) []

/-- Python str.strip: drop whitespace from both ends. -/
def stripChars (t : List Char) : List Char :=
  ((t.dropWhile Char.isWhitespace).reverse.dropWhile Char.isWhitespace).reverse

/-- Python str.strip on a String. -/
def pyStripStr (s : String) : String := String.mk (stripChars s.toList)

/-- The token scanned for by the target-language heuristic. -/
def toTok : List Char := ['t', 'o']

/-- words.index applied to the first occurrence of the token, combined
with the bounds check of client.py lines 170-173: the token right after
the first occurrence of toTok, if any. -/
def firstAfterTo : List (List Char) → Option (List Char)
  | [] => none
  | w :: ws => if w == toTok then ws.head? else firstAfterTo ws

/-- Target-language extraction of client.py lines 168-176: lower-case
and whitespace-split the query; if the token after the first occurrence
of toTok exists, strip it and use it unless empty; otherwise the safe
default. -/
def extractTargetLang (q : String) : String :=
  match firstAfterTo (pyWords q) with
  | some t =>
    let t' := stripChars t
    if t'.isEmpty then "hindi" else String.mk t'
  | none => "hindi"

/-- Bool test that a character sequence starts with another. -/
def seqStartsWith : List Char → List Char → Bool
  | [], _ => true
  | _ :: _, [] => false
  | a :: as, b :: bs => a == b && seqStartsWith as bs

/-- Python substring membership, needle in hay, on character lists. -/
def seqContains (needle : List Char) : List Char → Bool
  | [] => seqStartsWith needle []
  | c :: rest => seqStartsWith needle (c :: rest) || seqContains needle rest

/-- The chaining trigger test on the query from client.py line 162:
the lower-cased query contains the substring translate. -/
def containsTranslate (q : String) : Bool :=
  seqContains "translate".toList (lowerChars q)

/-! ## The agent pipeline (client.py run_agent) -/

/-- One part of the first Gemini response: either it carries a function
call (name and structured arguments) or it is a plain text part, which
the loop at client.py lines 137-140 skips. -/
inductive RespPart where
  | functionCall (name : String) (args : JDict)
  | textPart

/-- The external collaborators of run_agent for one request: the first
model response (error side: an exception raised by generate_content or
the candidates access, which run_agent does not catch), the tool HTTP
transport, and the second model round trip including the .text access
(error side: any exception, caught by the bare except). -/
structure Env where
  firstCall : Except String (List RespPart)
  oracle : ToolOracle
  secondCall : Except String String

/-- What run_agent returns, before serialization: the short-circuit
failure string built from an error value, the structured results dict
passed to json.dumps, the plain text of the second model call, or the
fixed fallback message. -/
inductive Answer where
  | failureMsg (errVal : JVal)
  | structured (d : JDict)
  | text (s : String)
  | fallbackMsg

/-- The user-facing string for an Answer, where modelled: the failure
f-string of client.py line 156 for string error values, the text and
the fixed fallback of lines 198-200. The json.dumps serialization of
structured results and str() of non-string error values are left
unmodelled. -/
def renderAnswer : Answer → Option String
  | .failureMsg (JVal.str m) => some ("I am sorry, something went wrong → " ++ m)
  | .failureMsg _ => none
  | .structured _ => none
  | .text s => some s
  | .fallbackMsg => some "Sorry — I could not summarize the results."

/-- Result of one run of run_agent: the answer, the full ordered list
of tool invocations actually sent to call_tool (name and payload), and
the value of the function attribute run_agent.last_tool_output after
the run. -/
structure AgentOutcome where
  answer : Answer
  trace : List (String × JDict)
  lastToolOutput : Option JDict

/-- Outcome of the primary tool-call loop of client.py lines 137-159:
either the short-circuit return of line 156 with the error value and
the invocations executed so far, or completion with the accumulated
all_results dict, the executed invocations, and the call count. -/
inductive LoopOut where
  | shortCircuit (errVal : JVal) (trace : List (String × JDict))
  | done (results : JDict) (trace : List (String × JDict)) (count : Nat)

/-- The primary tool-call loop of client.py lines 137-159: skip parts
without a function call; otherwise run the tool; on a dict containing
an error key return the failure immediately; otherwise store the output
under the tool name and continue. -/
def primaryLoop (oracle : ToolOracle) :
    List RespPart → JDict → List (String × JDict) → Nat → LoopOut
  | [], results, trace, k => .done results trace k
  | RespPart.textPart :: rest, results, trace, k => primaryLoop oracle rest results trace k
  | RespPart.functionCall name args :: rest, results, trace, k =>
    let tool_output := call_tool oracle k name args
    if hasKey tool_output "error" then
      LoopOut.shortCircuit (jGetD tool_output "error" JVal.null) (trace ++ [(name, args)])
    else
      primaryLoop oracle rest (dictSet results name (JVal.obj tool_output))
        (trace ++ [(name, args)]) (k + 1)

/-- The ordered function-call parts of the first model response: the
primary tool invocations the resolver proposed. -/
def primaryCalls : List RespPart → List (String × JDict)
  | [] => []
  | RespPart.functionCall name args :: rest => (name, args) :: primaryCalls rest
  | RespPart.textPart :: rest => primaryCalls rest

/-- places slicing at client.py line 165: a Python value sliced with
[:3]. Lists slice to their first three elements, strings to their first
three characters; slicing any other value raises a TypeError. -/
def pySlice3 : JVal → Except String (List JVal)
  | JVal.arr xs => .ok (xs.take 3)
  | JVal.str s => .ok ((s.toList.take 3).map fun c => JVal.str (String.mk [c]))
  | _ => .error "TypeError: object is not sliceable"

/-- Subscripting one entity with the name key at client.py line 165:
a missing key raises KeyError, a non-dict entity raises TypeError. -/
def pyIndexName : JVal → Except String JVal
  | JVal.obj d =>
    match jGet d "name" with
    | some v => .ok v
    | none => .error "KeyError: name"
  | _ => .error "TypeError: object is not subscriptable"

/-- The list comprehension of client.py line 165 applied to the sliced
entity list, left to right, propagating the first raised exception. -/
def extractNames : List JVal → Except String (List JVal)
  | [] => .ok []
  | p :: rest =>
    match pyIndexName p with
    | .error e => .error e
    | .ok nm =>
      match extractNames rest with
      | .error e => .error e
      | .ok rest' => .ok (nm :: rest')

/-- The payload of one chained translate_text invocation, client.py
line 181. -/
def translatePayload (target : String) (nm : JVal) : JDict :=
  [("text", nm), ("target_lang", JVal.str target)]

/-- t_out.get of the translated text with the sentinel default, from
client.py line 185, for the chained call with call index k. -/
def translatedOf (oracle : ToolOracle) (target : String) (k : Nat) (nm : JVal) : JVal :=
  jGetD (call_tool oracle k "translate_text" (translatePayload target nm))
    "translated_text" (JVal.str "[error]")

/-- The chained translation loop of client.py lines 178-186: for each
selected name, call translate_text and append the record with the
original name and the translated text or the sentinel. Returns the
records and the invocations sent, in order. -/
def chainLoop (oracle : ToolOracle) (target : String) :
    List JVal → Nat → List JVal × List (String × JDict)
  | [], _ => ([], [])
  | nm :: rest, k =>
    let record := JVal.obj [("original", nm), ("translated", translatedOf oracle target k nm)]
    let pair := chainLoop oracle target rest (k + 1)
    (record :: pair.1, ("translate_text", translatePayload target nm) :: pair.2)

/-- The translation records produced by the chained loop. -/
def chainRecords (oracle : ToolOracle) (target : String) (names : List JVal) (k : Nat) :
    List JVal :=
  (chainLoop oracle target names k).1

/-- The auto-translate block of client.py lines 162-188: when the
trigger holds, read the entity list (dict.get with default empty list),
slice, extract names, run the chained loop, and attach the records
under the translations key; otherwise leave everything unchanged.
The error side is a Python exception raised inside the block. -/
def chainBlock (oracle : ToolOracle) (q : String) (results : JDict)
    (trace : List (String × JDict)) (k : Nat) :
    Except String (JDict × List (String × JDict)) :=
  if hasKey results "search_places" && containsTranslate q then
    match jGet results "search_places" with
    | some (JVal.obj spd) =>
      let places := jGetD spd "results" (JVal.arr [])
      match (pySlice3 places).bind extractNames with
      | .error e => .error e
      | .ok names =>
        let target := extractTargetLang q
        let pair := chainLoop oracle target names k
        .ok (dictSet results "translations" (JVal.arr pair.1), trace ++ pair.2)
    | _ => .error "AttributeError: value has no attribute get"
  else .ok (results, trace)

/-- run_agent of client.py lines 56-200, with the function attribute
run_agent.last_tool_output made an explicit input and output (lastPrev
is its value before the call). The error side is a Python exception
escaping run_agent uncaught. -/
def run_agent (env : Env) (user_query : String) (lastPrev : Option JDict) :
    Except String AgentOutcome :=
  match env.firstCall with
  | .error e => .error e
  | .ok parts =>
    match primaryLoop env.oracle parts [] [] 0 with
    | .shortCircuit errVal trace => .ok ⟨Answer.failureMsg errVal, trace, lastPrev⟩
    | .done results trace k =>
      match chainBlock env.oracle user_query results trace k with
      | .error e => .error e
      | .ok (results2, trace2) =>
        if results2.isEmpty then
          match env.secondCall with
          | .ok t => .ok ⟨Answer.text t, trace2, lastPrev⟩
          | .error _ => .ok ⟨Answer.fallbackMsg, trace2, lastPrev⟩
        else .ok ⟨Answer.structured results2, trace2, some results2⟩

/-! ## The request entry point (server.py ask) -/

/-- HTTP responses the ask handler can produce: the 200 answer object,
the 400 empty-question error, or the 500 error object built from a
caught exception. -/
inductive HttpResp where
  | okAnswer (answer : String)
  | clientErr (msg : String)
  | serverErr (msg : String)
deriving DecidableEq

/-- Whether a response is the 200 answer object. -/
def isAnswerResp : HttpResp → Bool
  | .okAnswer _ => true
  | _ => false

/-- request.json.get of the question with default, then str.strip, from
server.py line 79. A non-string question value raises AttributeError on
the strip call; that exception is the error side. -/
def getQuestion (body : JDict) : Except String String :=
  match jGet body "question" with
  | none => .ok (pyStripStr "")
  | some (JVal.str s) => .ok (pyStripStr s)
  | some _ => .error "AttributeError: value has no attribute strip"

/-- The try block of the ask handler, server.py lines 78-86. The agent
argument is run_agent seen as a string-producing function whose error
side is a raised exception. -/
def askTry (agent : String → Except String String) (body : JDict) :
    Except String HttpResp :=
  match getQuestion body with
  | .error e => .error e
  | .ok question =>
    if question = "" then .ok (HttpResp.clientErr "Question cannot be empty")
    else
      match agent question with
      | .ok answer => .ok (HttpResp.okAnswer answer)
      | .error e => .error e

/-- The ask handler of server.py lines 75-90: the try block, with every
exception caught and turned into the 500 error response carrying the
exception text. -/
def ask (agent : String → Except String String) (body : JDict) : HttpResp :=
  match askTry agent body with
  | .ok r => r
  | .error e => HttpResp.serverErr e

/-! ## Lemmas about the primary loop -/

theorem primaryLoop_no_calls (oracle : ToolOracle) :
    ∀ (parts : List RespPart) (res : JDict) (tr : List (String × JDict)) (k : Nat),
      primaryCalls parts = [] → primaryLoop oracle parts res tr k = .done res tr k := by
  intro parts
  induction parts with
  | nil => intro res tr k _; rfl
  | cons p rest ih =>
    intro res tr k hempty
    cases p with
    | functionCall n a => simp [primaryCalls] at hempty
    | textPart =>
      simp only [primaryCalls] at hempty
      simpa [primaryLoop] using ih res tr k hempty

theorem primaryLoop_shortCircuit (oracle : ToolOracle) :
    ∀ (parts : List RespPart) (pre post : List (String × JDict)) (name : String)
      (args : JDict) (res : JDict) (tr : List (String × JDict)) (k : Nat),
      primaryCalls parts = pre ++ (name, args) :: post →
      (∀ i (h : i < pre.length),
        hasKey (call_tool oracle (k + i) (pre.get ⟨i, h⟩).1 (pre.get ⟨i, h⟩).2) "error"
          = false) →
      hasKey (call_tool oracle (k + pre.length) name args) "error" = true →
      primaryLoop oracle parts res tr k =
        .shortCircuit
          (jGetD (call_tool oracle (k + pre.length) name args) "error" JVal.null)
          (tr ++ pre ++ [(name, args)]) := by
  intro parts
  induction parts with
  | nil =>
    intro pre post name args res tr k hsplit _ _
    simp [primaryCalls] at hsplit
  | cons p rest ih =>
    intro pre post name args res tr k hsplit hpre hfail
    cases p with
    | textPart =>
      simp only [primaryCalls] at hsplit
      simpa [primaryLoop] using ih pre post name args res tr k hsplit hpre hfail
    | functionCall n a =>
      simp only [primaryCalls] at hsplit
      cases pre with
      | nil =>
        simp only [List.nil_append, List.cons.injEq, Prod.mk.injEq] at hsplit
        obtain ⟨⟨hn, ha⟩, -⟩ := hsplit
        subst hn; subst ha
        simp only [List.length_nil, Nat.add_zero] at hfail
        simp [primaryLoop, hfail]
      | cons hd pre' =>
        simp only [List.cons_append, List.cons.injEq] at hsplit
        obtain ⟨heq, hrest⟩ := hsplit
        subst heq
        have h0 : hasKey (call_tool oracle k n a) "error" = false := by
          simpa using hpre 0 (by simp)
        have hpre' : ∀ i (h : i < pre'.length),
            hasKey (call_tool oracle (k + 1 + i) (pre'.get ⟨i, h⟩).1
              (pre'.get ⟨i, h⟩).2) "error" = false := by
          intro i h
          have := hpre (i + 1) (by simpa using Nat.succ_lt_succ h)
          simpa [Nat.add_comm, Nat.add_assoc, Nat.add_left_comm] using this
        have hfail' :
            hasKey (call_tool oracle (k + 1 + pre'.length) name args) "error" = true := by
          have harith : k + ((n, a) :: pre').length = k + 1 + pre'.length := by
            simp [Nat.add_comm, Nat.add_assoc, Nat.add_left_comm]
          rwa [harith] at hfail
        have := ih pre' post name args (dictSet res n (JVal.obj (call_tool oracle k n a)))
          (tr ++ [(n, a)]) (k + 1) hrest hpre' hfail'
        have harith2 : k + 1 + pre'.length = k + ((n, a) :: pre').length := by
          simp [Nat.add_comm, Nat.add_assoc, Nat.add_left_comm]
        rw [harith2] at this
        simpa [primaryLoop, h0] using this

/-! ## Lemmas about the chained translation loop -/

theorem chainLoop_snd (oracle : ToolOracle) (target : String) :
    ∀ (names : List JVal) (k : Nat),
      (chainLoop oracle target names k).2 =
        names.map (fun nm => ("translate_text", translatePayload target nm)) := by
  intro names
  induction names with
  | nil => intro k; rfl
  | cons nm rest ih => intro k; simp [chainLoop, ih]

theorem chainRecords_length (oracle : ToolOracle) (target : String) :
    ∀ (names : List JVal) (k : Nat),
      (chainRecords oracle target names k).length = names.length := by
  intro names
  induction names with
  | nil => intro k; rfl
  | cons nm rest ih => intro k; simp [chainRecords, chainLoop] at ih ⊢; exact ih (k + 1)

theorem chainRecords_get (oracle : ToolOracle) (target : String) :
    ∀ (names : List JVal) (k : Nat) (i : Nat) (h : i < (chainRecords oracle target names k).length)
      (h' : i < names.length),
      (chainRecords oracle target names k).get ⟨i, h⟩ =
        JVal.obj [("original", names.get ⟨i, h'⟩),
          ("translated", translatedOf oracle target (k + i) (names.get ⟨i, h'⟩))] := by
  intro names
  induction names with
  | nil => intro k i h h'; exact absurd h' (by simp)
  | cons nm rest ih =>
    intro k i h h'
    cases i with
    | zero => simp [chainRecords, chainLoop]
    | succ j =>
      have hh : j < (chainRecords oracle target rest (k + 1)).length := by
        have := h
        simp only [chainRecords, chainLoop, List.length_cons] at this ⊢
        omega
      have hh' : j < rest.length := by simpa using Nat.lt_of_succ_lt_succ h'
      have := ih (k + 1) j hh hh'
      have harith : k + 1 + j = k + (j + 1) := by omega
      rw [harith] at this
      simpa [chainRecords, chainLoop] using this

/-! ## Lemmas about entity-name extraction -/

theorem pyIndexName_ok (p : JVal) (nm : JVal) (h : pyIndexName p = .ok nm) :
    ∃ d, p = JVal.obj d ∧ jGet d "name" = some nm := by
  cases p with
  | obj d =>
    refine ⟨d, rfl, ?_⟩
    simp only [pyIndexName] at h
    cases hg : jGet d "name" with
    | none => rw [hg] at h; exact absurd h (by simp)
    | some v => rw [hg] at h; simp at h; rw [h]
  | str s => exact absurd h (by simp [pyIndexName])
  | num n => exact absurd h (by simp [pyIndexName])
  | bool b => exact absurd h (by simp [pyIndexName])
  | null => exact absurd h (by simp [pyIndexName])
  | arr xs => exact absurd h (by simp [pyIndexName])

theorem extractNames_ok :
    ∀ (ps : List JVal) (names : List JVal), extractNames ps = .ok names →
      names.length = ps.length ∧
      ∀ i (h : i < ps.length) (h' : i < names.length),
        pyIndexName (ps.get ⟨i, h⟩) = .ok (names.get ⟨i, h'⟩) := by
  intro ps
  induction ps with
  | nil =>
    intro names h
    simp only [extractNames] at h
    cases h
    exact ⟨rfl, fun i h => absurd h (by simp)⟩
  | cons p rest ih =>
    intro names h
    simp only [extractNames] at h
    cases hp : pyIndexName p with
    | error e => rw [hp] at h; exact absurd h (by simp)
    | ok nm =>
      rw [hp] at h
      cases hr : extractNames rest with
      | error e => rw [hr] at h; exact absurd h (by simp)
      | ok rest' =>
        rw [hr] at h
        simp only [Except.ok.injEq] at h
        subst h
        obtain ⟨hlen, hget⟩ := ih rest' hr
        refine ⟨by simp [hlen], ?_⟩
        intro i hi hi'
        cases i with
        | zero => simpa using hp
        | succ j =>
          exact hget j (Nat.lt_of_succ_lt_succ hi) (Nat.lt_of_succ_lt_succ hi')

/-! ## The chaining block under the trigger -/

theorem chainBlock_eq (oracle : ToolOracle) (q : String) (results : JDict)
    (tr : List (String × JDict)) (k : Nat) (spd : JDict) (entities names : List JVal)
    (hsp : jGet results "search_places" = some (JVal.obj spd))
    (hres : jGet spd "results" = some (JVal.arr entities))
    (htr : containsTranslate q = true)
    (hnames : extractNames (entities.take 3) = .ok names) :
    chainBlock oracle q results tr k =
      .ok (dictSet results "translations"
            (JVal.arr (chainRecords oracle (extractTargetLang q) names k)),
          tr ++ names.map fun nm =>
            ("translate_text", translatePayload (extractTargetLang q) nm)) := by
  have hk : hasKey results "search_places" = true := by simp [hasKey, hsp]
  simp only [chainBlock, hk, htr, Bool.and_self, if_true, hsp]
  simp only [jGetD, hres, Option.getD_some, pySlice3, Except.bind, hnames]
  simp [chainRecords, chainLoop_snd]

theorem run_agent_chain (env : Env) (q : String) (prev : Option JDict)
    (parts : List RespPart) (results : JDict) (tr : List (String × JDict)) (k : Nat)
    (spd : JDict) (entities names : List JVal)
    (hfc : env.firstCall = .ok parts)
    (hloop : primaryLoop env.oracle parts [] [] 0 = .done results tr k)
    (hsp : jGet results "search_places" = some (JVal.obj spd))
    (hres : jGet spd "results" = some (JVal.arr entities))
    (htr : containsTranslate q = true)
    (hnames : extractNames (entities.take 3) = .ok names) :
    run_agent env q prev =
      .ok ⟨Answer.structured (dictSet results "translations"
              (JVal.arr (chainRecords env.oracle (extractTargetLang q) names k))),
           tr ++ names.map (fun nm =>
             ("translate_text", translatePayload (extractTargetLang q) nm)),
           some (dictSet results "translations"
              (JVal.arr (chainRecords env.oracle (extractTargetLang q) names k)))⟩ := by
  have hcb := chainBlock_eq env.oracle q results tr k spd entities names hsp hres htr hnames
  simp only [run_agent, hfc, hloop, hcb, dictSet_isEmpty, Bool.false_eq_true, if_false]

/-! ## Lemmas about the whitespace tokenizer -/

theorem splitWsAux_tokens :
    ∀ (cs acc : List Char), (∀ c ∈ acc, c.isWhitespace = false) →
      ∀ t ∈ splitWsAux cs acc, t ≠ [] ∧ ∀ c ∈ t, c.isWhitespace = false := by
  intro cs
  induction cs with
  | nil =>
    intro acc hacc t ht
    simp only [splitWsAux] at ht
    by_cases h : acc.isEmpty
    · simp [h] at ht
    · simp only [h, Bool.false_eq_true, if_false, List.mem_singleton] at ht
      subst ht
      constructor
      · simpa [List.isEmpty_iff] using h
      · intro c hc; exact hacc c (by simpa using hc)
  | cons c cs ih =>
    intro acc hacc t ht
    simp only [splitWsAux] at ht
    by_cases hw : c.isWhitespace
    · simp only [hw, if_true] at ht
      by_cases h : acc.isEmpty
      · simp only [h, if_true] at ht
        exact ih [] (by simp) t ht
      · simp only [h, Bool.false_eq_true, if_false, List.mem_cons] at ht
        rcases ht with ht | ht
        · subst ht
          constructor
          · simpa [List.isEmpty_iff] using h
          · intro x hx; exact hacc x (by simpa using hx)
        · exact ih [] (by simp) t ht
    · simp only [hw, Bool.false_eq_true, if_false] at ht
      refine ih (c :: acc) ?_ t ht
      intro x hx
      rcases List.mem_cons.mp hx with hx | hx
      · subst hx; simpa using hw
      · exact hacc x hx

theorem pyWords_tokens (s : String) :
    ∀ t ∈ pyWords s, t ≠ [] ∧ ∀ c ∈ t, c.isWhitespace = false := by
  intro t ht
  exact splitWsAux_tokens (lowerChars s) [] (by simp) t ht

theorem dropWhile_no_ws (t : List Char) (h : ∀ c ∈ t, c.isWhitespace = false) :
    t.dropWhile Char.isWhitespace = t := by
  cases t with
  | nil => rfl
  | cons c rest =>
    have hc : c.isWhitespace = false := h c (by simp)
    simp [List.dropWhile_cons, hc]

theorem stripChars_no_ws (t : List Char) (h : ∀ c ∈ t, c.isWhitespace = false) :
    stripChars t = t := by
  have h1 : t.dropWhile Char.isWhitespace = t := dropWhile_no_ws t h
  have h2 : t.reverse.dropWhile Char.isWhitespace = t.reverse := by
    refine dropWhile_no_ws t.reverse ?_
    intro c hc; exact h c (by simpa using hc)
  simp [stripChars, h1, h2]

theorem firstAfterTo_mem_none :
    ∀ (ws : List (List Char)), ¬ (toTok ∈ ws) → firstAfterTo ws = none := by
  intro ws
  induction ws with
  | nil => intro _; rfl
  | cons w rest ih =>
    intro h
    have hw : w ≠ toTok := fun he => h (by simp [he])
    have hb : (w == toTok) = false := by
      simpa using hw
    simp only [firstAfterTo, hb, Bool.false_eq_true, if_false]
    exact ih (fun hm => h (by simp [hm]))

theorem firstAfterTo_split :
    ∀ (pre post : List (List Char)), ¬ (toTok ∈ pre) →
      firstAfterTo (pre ++ toTok :: post) = post.head? := by
  intro pre
  induction pre with
  | nil => intro post _; simp [firstAfterTo]
  | cons w rest ih =>
    intro post h
    have hw : w ≠ toTok := fun he => h (by simp [he])
    have hb : (w == toTok) = false := by simpa using hw
    simp only [List.cons_append, firstAfterTo, hb, Bool.false_eq_true, if_false]
    exact ih post (fun hm => h (by simp [hm]))

/-! ## Claim C1 -/

/-- C1: for every sequence of primary tool invocations, if the k-th
invocation executes and its execution yields a Failure (a payload with
an error key), then invocations k+1..n are never executed (the executed
trace is exactly the first k+1 primary invocations, so neither later
primary invocations nor chained translations run), and the whole
request returns the single failure string built from the failure text. -/
theorem c1_primary_failure_short_circuits
    (env : Env) (q : String) (prev : Option JDict) (parts : List RespPart)
    (pre post : List (String × JDict)) (name : String) (args : JDict) (m : String)
    (hfc : env.firstCall = .ok parts)
    (hsplit : primaryCalls parts = pre ++ (name, args) :: post)
    (hpre : ∀ i (h : i < pre.length),
      hasKey (call_tool env.oracle i (pre.get ⟨i, h⟩).1 (pre.get ⟨i, h⟩).2) "error"
        = false)
    (hfail : jGet (call_tool env.oracle pre.length name args) "error"
        = some (JVal.str m)) :
    run_agent env q prev =
      .ok ⟨Answer.failureMsg (JVal.str m), pre ++ [(name, args)], prev⟩ ∧
    renderAnswer (Answer.failureMsg (JVal.str m)) =
      some ("I am sorry, something went wrong → " ++ m) := by
  have hk : hasKey (call_tool env.oracle (0 + pre.length) name args) "error" = true := by
    simp [hasKey, Nat.zero_add, hfail]
  have hpre0 : ∀ i (h : i < pre.length),
      hasKey (call_tool env.oracle (0 + i) (pre.get ⟨i, h⟩).1 (pre.get ⟨i, h⟩).2) "error"
        = false := by
    intro i h
    simpa using hpre i h
  have hloop := primaryLoop_shortCircuit env.oracle parts pre post name args [] [] 0
    hsplit hpre0 hk
  have hjd : jGetD (call_tool env.oracle (0 + pre.length) name args) "error" JVal.null
      = JVal.str m := by
    simp [jGetD, Nat.zero_add, hfail]
  refine ⟨?_, rfl⟩
  rw [hjd] at hloop
  simp [run_agent, hfc, hloop]

def c1Oracle : ToolOracle := fun _ _ _ => .ok [("error", JVal.str "Location not found")]

def c1Env : Env :=
  ⟨.ok [RespPart.functionCall "get_weather" [("location", JVal.str "Portland")]],
   c1Oracle, .ok "unused"⟩

theorem c1_witness :
    run_agent c1Env "weather in Portland" none =
      .ok ⟨Answer.failureMsg (JVal.str "Location not found"),
           [("get_weather", [("location", JVal.str "Portland")])], none⟩ ∧
    renderAnswer (Answer.failureMsg (JVal.str "Location not found")) =
      some "I am sorry, something went wrong → Location not found" := by
  have h := c1_primary_failure_short_circuits c1Env "weather in Portland" none
    [RespPart.functionCall "get_weather" [("location", JVal.str "Portland")]]
    [] [] "get_weather" [("location", JVal.str "Portland")] "Location not found"
    rfl rfl (fun i h => absurd h (Nat.not_lt_zero i)) rfl
  exact ⟨h.1, h.2.trans (by decide)⟩

/-! ## Claim C3 -/

/-- C3: target-language extraction is a pure total function of the
query string: lower-case and whitespace-tokenize the query; if the
token to appears and is not the last token, the result is the token
immediately following its first occurrence; if to is absent or is the
last token, the result is the default hindi. -/
theorem c3_target_language_extraction (q : String) :
    (∀ pre post, pyWords q = pre ++ toTok :: post → ¬ (toTok ∈ pre) →
      extractTargetLang q = (match post with
        | [] => "hindi"
        | t :: _ => String.mk t)) ∧
    (¬ (toTok ∈ pyWords q) → extractTargetLang q = "hindi") := by
  constructor
  · intro pre post hsplit hmem
    have hfa : firstAfterTo (pyWords q) = post.head? := by
      rw [hsplit]
      exact firstAfterTo_split pre post hmem
    cases post with
    | nil => simp [extractTargetLang, hfa]
    | cons t rest =>
      have htok : t ≠ [] ∧ ∀ c ∈ t, c.isWhitespace = false := by
        refine pyWords_tokens q t ?_
        rw [hsplit]
        simp
      have hstrip := stripChars_no_ws t htok.2
      have hne : t.isEmpty = false := by
        simpa [List.isEmpty_iff] using htok.1
      simp [extractTargetLang, hfa, hstrip, hne]
  · intro hmem
    simp [extractTargetLang, firstAfterTo_mem_none _ hmem]

theorem c3_witness :
    extractTargetLang "translate these to spanish" = "spanish" ∧
    extractTargetLang "translate these" = "hindi" ∧
    extractTargetLang "translate to" = "hindi" := by
  refine ⟨?_, ?_, ?_⟩
  · have h := (c3_target_language_extraction "translate these to spanish").1
      [['t','r','a','n','s','l','a','t','e'], ['t','h','e','s','e']]
      [['s','p','a','n','i','s','h']] (by decide) (by decide)
    exact h.trans (by decide)
  · exact (c3_target_language_extraction "translate these").2 (by decide)
  · have h := (c3_target_language_extraction "translate to").1
      [['t','r','a','n','s','l','a','t','e']] [] (by decide) (by decide)
    exact h.trans (by decide)

/-! ## Claim C9 -/

/-- C9: if the primary invocation sequence is empty (the resolver
proposed no tool calls), no tool is invoked and a second model round
trip is attempted to produce a plain-text answer; if that second round
trip fails, the fixed fallback message is returned. -/
theorem c9_empty_primary_fallback (env : Env) (q : String) (prev : Option JDict)
    (parts : List RespPart)
    (hfc : env.firstCall = .ok parts)
    (hempty : primaryCalls parts = []) :
    (∀ t, env.secondCall = .ok t →
      run_agent env q prev = .ok ⟨Answer.text t, [], prev⟩) ∧
    (∀ e, env.secondCall = .error e →
      run_agent env q prev = .ok ⟨Answer.fallbackMsg, [], prev⟩ ∧
      renderAnswer Answer.fallbackMsg =
        some "Sorry — I could not summarize the results.") := by
  have hloop := primaryLoop_no_calls env.oracle parts [] [] 0 hempty
  have hcb : chainBlock env.oracle q [] [] 0 = .ok ([], []) := by
    simp [chainBlock, hasKey, jGet]
  constructor
  · intro t ht
    simp [run_agent, hfc, hloop, hcb, ht]
  · intro e he
    exact ⟨by simp [run_agent, hfc, hloop, hcb, he], rfl⟩

def c9Env : Env :=
  ⟨.ok [RespPart.textPart], (fun _ _ _ => .exn "unreachable"), .error "model down"⟩

theorem c9_witness :
    run_agent c9Env "hello" none = .ok ⟨Answer.fallbackMsg, [], none⟩ ∧
    renderAnswer Answer.fallbackMsg =
      some "Sorry — I could not summarize the results." :=
  (c9_empty_primary_fallback c9Env "hello" none [RespPart.textPart] rfl rfl).2
    "model down" rfl

/-! ## Claim C2 -/

/-- C2: for every query whose lower-cased text contains the substring
translate and every aggregated results mapping with a successful
search_places result holding a list of entities under the results key,
the chaining policy produces exactly min(3, entity count) translate
invocations, in entity order, the i-th with text equal to the name
field of the i-th selected entity and target_lang equal to the
extracted or default target; an empty entity list produces none. -/
theorem c2_chaining_policy (oracle : ToolOracle) (q : String) (results : JDict)
    (tr : List (String × JDict)) (k : Nat) (spd : JDict) (entities names : List JVal)
    (hsp : jGet results "search_places" = some (JVal.obj spd))
    (hres : jGet spd "results" = some (JVal.arr entities))
    (htr : containsTranslate q = true)
    (hnames : extractNames (entities.take 3) = .ok names) :
    chainBlock oracle q results tr k =
      .ok (dictSet results "translations"
            (JVal.arr (chainRecords oracle (extractTargetLang q) names k)),
          tr ++ names.map fun nm =>
            ("translate_text", translatePayload (extractTargetLang q) nm)) ∧
    names.length = min 3 entities.length ∧
    (∀ i (h : i < (entities.take 3).length) (h' : i < names.length),
      ∃ d, (entities.take 3).get ⟨i, h⟩ = JVal.obj d ∧
        jGet d "name" = some (names.get ⟨i, h'⟩)) := by
  obtain ⟨hlen, hget⟩ := extractNames_ok (entities.take 3) names hnames
  refine ⟨chainBlock_eq oracle q results tr k spd entities names hsp hres htr hnames,
    ?_, ?_⟩
  · rw [hlen, List.length_take]
  · intro i h h'
    exact pyIndexName_ok _ _ (hget i h h')

def c2Entities : List JVal :=
  [JVal.obj [("name", JVal.str "Cafe A")], JVal.obj [("name", JVal.str "Cafe B")]]

def c2SearchOut : JDict := [("results", JVal.arr c2Entities)]

def c2Results : JDict := [("search_places", JVal.obj c2SearchOut)]

def c2Names : List JVal := [JVal.str "Cafe A", JVal.str "Cafe B"]

def c2Q : String := "find cafes and translate to spanish"

def c2Oracle : ToolOracle := fun _ name _ =>
  if name = "search_places" then .ok c2SearchOut
  else .ok [("translated_text", JVal.str "Cafe X")]

theorem c2_witness :
    chainBlock c2Oracle c2Q c2Results [] 1 =
      .ok (dictSet c2Results "translations"
            (JVal.arr (chainRecords c2Oracle (extractTargetLang c2Q) c2Names 1)),
          [] ++ c2Names.map fun nm =>
            ("translate_text", translatePayload (extractTargetLang c2Q) nm)) ∧
    c2Names.length = min 3 c2Entities.length ∧
    (∀ i (h : i < (c2Entities.take 3).length) (h' : i < c2Names.length),
      ∃ d, (c2Entities.take 3).get ⟨i, h⟩ = JVal.obj d ∧
        jGet d "name" = some (c2Names.get ⟨i, h'⟩)) :=
  c2_chaining_policy c2Oracle c2Q c2Results [] 1 c2SearchOut c2Entities c2Names
    rfl rfl (by decide) rfl

/-! ## Claim C6 -/

/-- C6: for every sequence of selected entity names, a Failure from one
chained translate_text invocation never aborts the remaining entities
or the overall response: the run completes with a structured answer,
every entity yields a record with original equal to the entity name and
translated equal to the translated text on success or the sentinel on
failure, the records appear in entity order, and the sequence is
attached to the aggregated response under the translations key. -/
theorem c6_translation_failures_isolated (env : Env) (q : String) (prev : Option JDict)
    (parts : List RespPart) (results : JDict) (tr : List (String × JDict)) (k : Nat)
    (spd : JDict) (entities names : List JVal)
    (hfc : env.firstCall = .ok parts)
    (hloop : primaryLoop env.oracle parts [] [] 0 = .done results tr k)
    (hsp : jGet results "search_places" = some (JVal.obj spd))
    (hres : jGet spd "results" = some (JVal.arr entities))
    (htr : containsTranslate q = true)
    (hnames : extractNames (entities.take 3) = .ok names) :
    (∃ out, run_agent env q prev = .ok out ∧
      out.answer = Answer.structured (dictSet results "translations"
        (JVal.arr (chainRecords env.oracle (extractTargetLang q) names k)))) ∧
    jGet (dictSet results "translations"
        (JVal.arr (chainRecords env.oracle (extractTargetLang q) names k)))
        "translations"
      = some (JVal.arr (chainRecords env.oracle (extractTargetLang q) names k)) ∧
    (chainRecords env.oracle (extractTargetLang q) names k).length = names.length ∧
    (∀ i (h : i < (chainRecords env.oracle (extractTargetLang q) names k).length)
        (h' : i < names.length),
      (chainRecords env.oracle (extractTargetLang q) names k).get ⟨i, h⟩ =
        JVal.obj [("original", names.get ⟨i, h'⟩),
          ("translated", translatedOf env.oracle (extractTargetLang q) (k + i)
            (names.get ⟨i, h'⟩))]) ∧
    (∀ j nm, jGet (call_tool env.oracle j "translate_text"
        (translatePayload (extractTargetLang q) nm)) "translated_text" = none →
      translatedOf env.oracle (extractTargetLang q) j nm = JVal.str "[error]") := by
  refine ⟨⟨_, run_agent_chain env q prev parts results tr k spd entities names
      hfc hloop hsp hres htr hnames, rfl⟩,
    jGet_dictSet_self _ _ _,
    chainRecords_length env.oracle (extractTargetLang q) names k,
    chainRecords_get env.oracle (extractTargetLang q) names k,
    ?_⟩
  intro j nm hnone
  simp [translatedOf, jGetD, hnone]

def c6Entities : List JVal :=
  [JVal.obj [("name", JVal.str "Cafe A")], JVal.obj [("name", JVal.str "Cafe B")]]

def c6SearchOut : JDict := [("results", JVal.arr c6Entities)]

def c6Args : JDict := [("query", JVal.str "cafes"), ("location", JVal.str "PSU")]

def c6Oracle : ToolOracle := fun k name _ =>
  if name = "search_places" then .ok c6SearchOut
  else if k = 1 then .exn "timeout"
  else .ok [("translated_text", JVal.str "Cafe Bee")]

def c6Parts : List RespPart := [RespPart.functionCall "search_places" c6Args]

def c6Env : Env := ⟨.ok c6Parts, c6Oracle, .ok "unused"⟩

def c6Q : String := "find cafes and translate to french"

def c6Results : JDict := [("search_places", JVal.obj c6SearchOut)]

def c6Names : List JVal := [JVal.str "Cafe A", JVal.str "Cafe B"]

theorem c6_witness :
    (∃ out, run_agent c6Env c6Q none = .ok out ∧
      out.answer = Answer.structured (dictSet c6Results "translations"
        (JVal.arr (chainRecords c6Env.oracle (extractTargetLang c6Q) c6Names 1)))) ∧
    jGet (dictSet c6Results "translations"
        (JVal.arr (chainRecords c6Env.oracle (extractTargetLang c6Q) c6Names 1)))
        "translations"
      = some (JVal.arr (chainRecords c6Env.oracle (extractTargetLang c6Q) c6Names 1)) ∧
    (chainRecords c6Env.oracle (extractTargetLang c6Q) c6Names 1).length =
      c6Names.length ∧
    (∀ i (h : i < (chainRecords c6Env.oracle (extractTargetLang c6Q) c6Names 1).length)
        (h' : i < c6Names.length),
      (chainRecords c6Env.oracle (extractTargetLang c6Q) c6Names 1).get ⟨i, h⟩ =
        JVal.obj [("original", c6Names.get ⟨i, h'⟩),
          ("translated", translatedOf c6Env.oracle (extractTargetLang c6Q) (1 + i)
            (c6Names.get ⟨i, h'⟩))]) ∧
    (∀ j nm, jGet (call_tool c6Env.oracle j "translate_text"
        (translatePayload (extractTargetLang c6Q) nm)) "translated_text" = none →
      translatedOf c6Env.oracle (extractTargetLang c6Q) j nm = JVal.str "[error]") :=
  c6_translation_failures_isolated c6Env c6Q none c6Parts c6Results
    [("search_places", c6Args)] 1 c6SearchOut c6Entities c6Names
    rfl rfl rfl rfl (by decide) rfl

/-! ## Claim C10 -/

/-- C10: whenever the chaining trigger holds (a search_places entry is
present in the aggregated results and the lower-cased query contains
translate), every structured response the run produces contains a
translations key; in particular when the search_places payload has no
results key or its entity list is empty, the run completes, the value
under translations is the empty sequence, and no translate_text
invocation is executed (the trace is exactly the primary trace). -/
theorem c10_translations_key_always_present (env : Env) (q : String)
    (prev : Option JDict) (parts : List RespPart) (results : JDict)
    (tr : List (String × JDict)) (k : Nat) (spd : JDict)
    (hfc : env.firstCall = .ok parts)
    (hloop : primaryLoop env.oracle parts [] [] 0 = .done results tr k)
    (hsp : jGet results "search_places" = some (JVal.obj spd))
    (htr : containsTranslate q = true) :
    (∀ out, run_agent env q prev = .ok out →
      ∃ d, out.answer = Answer.structured d ∧ hasKey d "translations" = true) ∧
    (jGetD spd "results" (JVal.arr []) = JVal.arr [] →
      run_agent env q prev =
        .ok ⟨Answer.structured (dictSet results "translations" (JVal.arr [])), tr,
             some (dictSet results "translations" (JVal.arr []))⟩ ∧
      jGet (dictSet results "translations" (JVal.arr [])) "translations" =
        some (JVal.arr [])) := by
  have hk : hasKey results "search_places" = true := by simp [hasKey, hsp]
  constructor
  · intro out hout
    cases hbind : (pySlice3 (jGetD spd "results" (JVal.arr []))).bind extractNames with
    | error e =>
      have hrun : run_agent env q prev = .error e := by
        simp [run_agent, hfc, hloop, chainBlock, hk, htr, hsp, hbind]
      rw [hrun] at hout
      exact absurd hout (by simp)
    | ok names =>
      have hrun : run_agent env q prev =
          .ok ⟨Answer.structured (dictSet results "translations"
                (JVal.arr (chainRecords env.oracle (extractTargetLang q) names k))),
              tr ++ names.map (fun nm =>
                ("translate_text", translatePayload (extractTargetLang q) nm)),
              some (dictSet results "translations"
                (JVal.arr (chainRecords env.oracle (extractTargetLang q) names k)))⟩ := by
        simp [run_agent, hfc, hloop, chainBlock, hk, htr, hsp, hbind, dictSet_isEmpty,
          chainRecords, chainLoop_snd]
      rw [hrun] at hout
      have hout' := Except.ok.inj hout
      subst hout'
      exact ⟨_, rfl, hasKey_dictSet_self _ _ _⟩
  · intro hempty
    have hcb : chainBlock env.oracle q results tr k =
        .ok (dictSet results "translations" (JVal.arr []), tr) := by
      simp [chainBlock, hk, htr, hsp, hempty, pySlice3, Except.bind, extractNames,
        chainLoop]
    exact ⟨by simp [run_agent, hfc, hloop, hcb, dictSet_isEmpty],
      jGet_dictSet_self _ _ _⟩

def c10SearchOut : JDict := [("note", JVal.str "no matches")]

def c10Args : JDict := [("query", JVal.str "cafes"), ("location", JVal.str "PSU")]

def c10Oracle : ToolOracle := fun _ _ _ => .ok c10SearchOut

def c10Parts : List RespPart := [RespPart.functionCall "search_places" c10Args]

def c10Env : Env := ⟨.ok c10Parts, c10Oracle, .ok "unused"⟩

def c10Q : String := "find cafes and translate them"

def c10Results : JDict := [("search_places", JVal.obj c10SearchOut)]

theorem c10_witness :
    (∀ out, run_agent c10Env c10Q none = .ok out →
      ∃ d, out.answer = Answer.structured d ∧ hasKey d "translations" = true) ∧
    (jGetD c10SearchOut "results" (JVal.arr []) = JVal.arr [] →
      run_agent c10Env c10Q none =
        .ok ⟨Answer.structured (dictSet c10Results "translations" (JVal.arr [])),
             [("search_places", c10Args)],
             some (dictSet c10Results "translations" (JVal.arr []))⟩ ∧
      jGet (dictSet c10Results "translations" (JVal.arr [])) "translations" =
        some (JVal.arr [])) :=
  c10_translations_key_always_present c10Env c10Q none c10Parts c10Results
    [("search_places", c10Args)] 1 c10SearchOut rfl rfl rfl (by decide)

/-! ## Claim C4 -/

/-- C4 counterexample: executing the unknown tool name frobnicate
against the server transport yields a Failure whose message is the
JSON-decode error of the 404 page; that message does not contain the
tool name and is not of the form unknown tool followed by the name. -/
theorem c4_counterexample :
    call_tool (serverTransport fun _ _ _ => []) 0 "frobnicate" [] =
      [("error", JVal.str jsonDecodeErrorMsg)] ∧
    seqContains "frobnicate".toList jsonDecodeErrorMsg.toList = false ∧
    jsonDecodeErrorMsg ≠ "unknown tool: frobnicate" :=
  ⟨rfl, by decide, by decide⟩

/-- C4 amended: for every tool name not present in the server route
table and every argument mapping, executing the invocation returns a
Failure and never lets an exception escape the executor, but the
failure message is the fixed JSON-decode error produced by parsing the
404 page, independent of the tool name, rather than a message of the
form unknown tool followed by the name. -/
theorem c4_unknown_tool_failure (impl : Nat → String → JDict → JDict) (k : Nat)
    (name : String) (args : JDict) (h : ¬ name ∈ serverRoutes) :
    call_tool_sem (serverTransport impl) k name args =
      .ok [("error", JVal.str jsonDecodeErrorMsg)] ∧
    call_tool (serverTransport impl) k name args =
      [("error", JVal.str jsonDecodeErrorMsg)] := by
  constructor
  · simp [call_tool_sem, callToolAttempt, serverTransport, h]
  · simp [call_tool, callToolAttempt, serverTransport, h]

theorem c4_witness :
    call_tool_sem (serverTransport fun _ _ _ => []) 3 "frobnicate" [] =
      .ok [("error", JVal.str jsonDecodeErrorMsg)] ∧
    call_tool (serverTransport fun _ _ _ => []) 3 "frobnicate" [] =
      [("error", JVal.str jsonDecodeErrorMsg)] :=
  c4_unknown_tool_failure (fun _ _ _ => []) 3 "frobnicate" [] (by decide)

/-! ## Claim C7 -/

/-- C7: the tool executor is total at its boundary: for every oracle
behavior, call index, tool name and argument mapping, no exception
propagates past call_tool (its exception-aware semantics always
returns), and every transport error, timeout or malformed response
raised by the HTTP round trip is converted into a Failure dict carrying
the exception message. -/
theorem c7_executor_total (oracle : ToolOracle) (k : Nat) (name : String)
    (args : JDict) :
    call_tool_sem oracle k name args = .ok (call_tool oracle k name args) ∧
    (∀ e, oracle k name args = .exn e →
      call_tool oracle k name args = [("error", JVal.str e)]) := by
  constructor
  · cases h : oracle k name args with
    | ok d => simp [call_tool_sem, call_tool, callToolAttempt, h]
    | exn e => simp [call_tool_sem, call_tool, callToolAttempt, h]
  · intro e he
    simp [call_tool, callToolAttempt, he]

theorem c7_witness :
    call_tool_sem (fun _ _ _ => .exn "Connection refused") 0 "get_weather" [] =
      .ok (call_tool (fun _ _ _ => .exn "Connection refused") 0 "get_weather" []) ∧
    call_tool (fun _ _ _ => .exn "Connection refused") 0 "get_weather" [] =
      [("error", JVal.str "Connection refused")] :=
  ⟨(c7_executor_total (fun _ _ _ => .exn "Connection refused") 0 "get_weather" []).1,
   (c7_executor_total (fun _ _ _ => .exn "Connection refused") 0 "get_weather" []).2
     "Connection refused" rfl⟩

/-! ## Claim C5 -/

def c5Args : JDict := [("location", JVal.str "Portland")]

def c5Out : JDict := [("temperature_c", JVal.num 10)]

def c5Oracle : ToolOracle := fun _ _ _ => .ok c5Out

def c5Env : Env :=
  ⟨.ok [RespPart.functionCall "get_weather" c5Args], c5Oracle, .ok "unused"⟩

def c5Results : JDict := [("get_weather", JVal.obj c5Out)]

/-- C5 counterexample: handling this query writes the function
attribute run_agent.last_tool_output, changing it from none to the
aggregated results dict, and the new value is still there when the
query completes, so handling a query does leave mutable state readable
by a later query. -/
theorem c5_counterexample :
    run_agent c5Env "weather in Portland" none =
      .ok ⟨Answer.structured c5Results, [("get_weather", c5Args)], some c5Results⟩ ∧
    some c5Results ≠ (none : Option JDict) :=
  ⟨rfl, by simp⟩

/-- C5 amended: handling a query can write exactly one piece of
cross-query mutable state, the function attribute
run_agent.last_tool_output, set to the aggregated results whenever the
structured answer is produced and left at its prior value otherwise;
the agent never reads that state: the answer and the executed tool
invocations are independent of its value before the call. -/
theorem c5_state_write_only (env : Env) (q : String) (p1 p2 : Option JDict) :
    (run_agent env q p1).map (fun o => (o.answer, o.trace)) =
      (run_agent env q p2).map (fun o => (o.answer, o.trace)) ∧
    (∀ out, run_agent env q p1 = .ok out →
      out.lastToolOutput = p1 ∨
      ∃ d, out.answer = Answer.structured d ∧ out.lastToolOutput = some d) := by
  constructor
  · cases hfc : env.firstCall with
    | error e => simp [run_agent, hfc]
    | ok parts =>
      simp only [run_agent, hfc]
      cases hloop : primaryLoop env.oracle parts [] [] 0 with
      | shortCircuit errVal trace => simp [Except.map]
      | done results trace k =>
        cases hcb : chainBlock env.oracle q results trace k with
        | error e => simp [hcb]
        | ok pr =>
          obtain ⟨results2, trace2⟩ := pr
          simp only [hcb]
          by_cases h : results2.isEmpty
          · cases hsc : env.secondCall <;> simp [h, hsc, Except.map]
          · simp [h]
  · intro out hout
    cases hfc : env.firstCall with
    | error e => simp [run_agent, hfc] at hout
    | ok parts =>
      simp only [run_agent, hfc] at hout
      cases hloop : primaryLoop env.oracle parts [] [] 0 with
      | shortCircuit errVal trace =>
        simp only [hloop] at hout
        have heq := Except.ok.inj hout
        subst heq
        exact Or.inl rfl
      | done results trace k =>
        simp only [hloop] at hout
        cases hcb : chainBlock env.oracle q results trace k with
        | error e => simp [hcb] at hout
        | ok pr =>
          obtain ⟨results2, trace2⟩ := pr
          simp only [hcb] at hout
          by_cases h : results2.isEmpty
          · simp only [h, if_true] at hout
            cases hsc : env.secondCall with
            | ok t =>
              simp only [hsc] at hout
              have heq := Except.ok.inj hout
              subst heq
              exact Or.inl rfl
            | error e =>
              simp only [hsc] at hout
              have heq := Except.ok.inj hout
              subst heq
              exact Or.inl rfl
          · simp only [h, Bool.false_eq_true, if_false] at hout
            have heq := Except.ok.inj hout
            subst heq
            exact Or.inr ⟨results2, rfl, rfl⟩

theorem c5_witness :
    (run_agent c5Env "weather in Portland" (some [("old", JVal.null)])).map
        (fun o => (o.answer, o.trace)) =
      (run_agent c5Env "weather in Portland" none).map
        (fun o => (o.answer, o.trace)) ∧
    (∀ out, run_agent c5Env "weather in Portland" (some [("old", JVal.null)]) = .ok out →
      out.lastToolOutput = some [("old", JVal.null)] ∨
      ∃ d, out.answer = Answer.structured d ∧ out.lastToolOutput = some d) :=
  c5_state_write_only c5Env "weather in Portland" (some [("old", JVal.null)]) none

/-! ## Claim C8 -/

/-- C8 counterexample: with an agent that raises, the entry point
returns the 500 error object carrying the raw exception text, not an
answer string and not an apology message, so the entry point does not
always return a string answer converting unexpected failures into a
generic apology. -/
theorem c8_counterexample :
    ask (fun _ => Except.error "boom") [("question", JVal.str "hello")] =
      HttpResp.serverErr "boom" ∧
    isAnswerResp (ask (fun _ => Except.error "boom")
      [("question", JVal.str "hello")]) = false :=
  ⟨rfl, rfl⟩

/-- C8 amended: the entry point never lets a fault propagate to the
caller: every exception raised inside its try block (including any
unexpected failure raised by the agent) is caught and converted into
the 500 error object carrying the exception text, while successful
handling of a nonempty question returns the answer object; there is no
generic apology message at this layer. -/
theorem c8_ask_catches_faults (agent : String → Except String String) (body : JDict) :
    (∀ e, askTry agent body = .error e → ask agent body = HttpResp.serverErr e) ∧
    (∀ q a, getQuestion body = .ok q → q ≠ "" → agent q = .ok a →
      ask agent body = HttpResp.okAnswer a) := by
  constructor
  · intro e he
    simp [ask, he]
  · intro q a hq hne ha
    simp [ask, askTry, hq, hne, ha]

theorem c8_witness :
    ask (fun s => Except.ok ("echo " ++ s)) [("question", JVal.str "hi")] =
      HttpResp.okAnswer ("echo " ++ pyStripStr "hi") :=
  (c8_ask_catches_faults (fun s => Except.ok ("echo " ++ s))
    [("question", JVal.str "hi")]).2 (pyStripStr "hi") ("echo " ++ pyStripStr "hi")
    rfl (by decide) rfl
